import Mathlib

/-!
# Verification of the plugincompat test-orchestration pipeline (`run.py`)

Shallow embedding of the per-plugin pipeline `process_package`, the helper
steps `download_package`, `extract`, `run_tox`, and the result aggregation /
report shaping of `main`, from `src/run.py`.

External effects (the HTTP skip check, the package index, the network
download, the tox subprocess, and the wall clock) are modelled as an explicit
environment record `Env` supplied to the pipeline; exceptions raised by the
Python code are modelled with `Except`.
-/

namespace Plugincompat

/-- One release-artifact descriptor as returned by
`client.release_urls(name, version)` (`run.py` line 50): the pipeline reads
its `url` and `packagetype` fields. -/
structure UrlData where
  url : String
  packagetype : String
deriving DecidableEq, Repr

/-- Helper for `basename`: scan the characters, resetting the accumulated
component at every `/`. -/
def basenameAux : List Char → List Char → List Char
  | acc, [] => acc
  | acc, c :: rest =>
    if c = '/' then basenameAux [] rest else basenameAux (acc ++ [c]) rest

/-- Model of `os.path.basename` applied to a URL (`run.py` line 51): the
part of the string after the last `/`. -/
def basename (p : String) : String :=
  ⟨basenameAux [] p.data⟩

/-- Python `s.endswith(t)` on the characters of the strings. -/
def strEndsWith (s t : String) : Bool :=
  if t.data.length ≤ s.data.length then
    if s.data.drop (s.data.length - t.data.length) = t.data then true else false
  else false

/-- Python `s[:-n]` for `0 < n ≤ len(s)`: drop the last `n` characters. -/
def strDropRight (s : String) (n : Nat) : String :=
  ⟨s.data.take (s.data.length - n)⟩

/-- The `status_code` field of a `PackageResult`: an integer exit code, or
the Python string `'error'` assigned when an unexpected exception is caught
(`run.py` line 166). -/
inductive StatusCode where
  | int : Int → StatusCode
  | error : StatusCode
deriving DecidableEq, Repr

/-- The `PackageResult` namedtuple of `run.py` (lines 124-126).  `elapsed`
is a wall-clock duration in seconds, modelled as a rational. -/
structure PackageResult where
  name : String
  version : String
  status_code : StatusCode
  status : String
  output : String
  description : String
  elapsed : ℚ
deriving DecidableEq, Repr

/-- Python exceptions that can escape `process_package`: an exception from
`requests.get` in the skip check, an exception from `urlretrieve` in
`download_package`, and the `assert False` in `extract` (line 82). -/
inductive PyExn where
  | requestsExc : String → PyExn
  | urlretrieveExc : String → PyExn
  | assertionError : String → PyExn
deriving DecidableEq, Repr

/-- Outcome of `subprocess.check_output` for the tox command line
(`run.py` lines 98-103): normal output, or a `CalledProcessError` carrying
the return code and the captured output. -/
inductive SubprocessOutcome where
  | ok : String → SubprocessOutcome
  | calledProcessError : Int → String → SubprocessOutcome
deriving DecidableEq, Repr

/-- Function `run_tox` (`run.py` lines 85-105): returns
`(exit code, output)`; a `CalledProcessError` is caught and turned into its
return code and output. -/
def run_tox (sub : SubprocessOutcome) : Int × String :=
  match sub with
  | .ok out => (0, out)
  | .calledProcessError code out => (code, out)

/-- What `f.result(timeout=5 * 60)` observes for the tox future
(`run.py` lines 153-166): the completed `run_tox` call, a
`concurrent.futures.TimeoutError`, or some other exception whose traceback
text is captured. -/
inductive ToxAwait where
  | completed : SubprocessOutcome → ToxAwait
  | timedOut : ToxAwait
  | raised : String → ToxAwait
deriving DecidableEq, Repr

/-- Wall-clock instants observed by one `process_package` call, in seconds.
`start` is `time.time()` at line 133; `skipStamp` and `noSourceStamp` are
the instants of the `get_elapsed()` calls at lines 142 and 149; `waitEnd`
is the instant at which `f.result(timeout=5 * 60)` returns or raises;
`outputStamp` and `returnStamp` are the instants of the `get_elapsed()`
calls at lines 169 and 171. -/
structure Timing where
  start : ℚ
  skipStamp : ℚ
  noSourceStamp : ℚ
  waitEnd : ℚ
  outputStamp : ℚ
  returnStamp : ℚ
deriving DecidableEq, Repr

/-- The wall-clock timeout for one tox run: `5 * 60` seconds
(`run.py` line 154). -/
def TIMEOUT_SECONDS : ℚ := 5 * 60

/-- The external world seen by one `process_package` call:
`plugincompat_site` is `os.environ.get('PLUGINCOMPAT_SITE')`;
`skipResponse` is the result of `requests.get` in the skip check (an
exception, or an HTTP status code); `release_urls` is the package index
answer; `retrieve` is the result of the `urlretrieve` network call;
`toxAwait` is what waiting on the tox future observes; `timing` gives the
clock readings. -/
structure Env where
  plugincompat_site : Option String
  skipResponse : Except String Nat
  release_urls : List UrlData
  retrieve : Except String Unit
  toxAwait : ToxAwait
  timing : Timing
deriving Repr

/-- Side-effect counters for one pipeline run: how many `urlretrieve`
download calls and how many tox-future submissions were performed. -/
structure Effects where
  downloads : Nat
  toxInvocations : Nat
deriving DecidableEq, Repr

/-- Function `download_package` (`run.py` lines 49-57): scan the release
urls in order; at the first `sdist` artifact perform the (lock-guarded)
`urlretrieve` and return its basename; if no `sdist` is present return
`None`.  A failing `urlretrieve` raises out of the function. -/
def download_package (retrieve : Except String Unit) :
    List UrlData → Except PyExn (Option String)
  | [] => .ok none
  | u :: rest =>
    if u.packagetype = "sdist" then
      match retrieve with
      | .ok _ => .ok (some (basename u.url))
      | .error m => .error (.urlretrieveExc m)
    else
      download_package retrieve rest

/-- Function `extract` (`run.py` lines 60-82): match the archive name against the
supported extensions `.zip`, `.tar.gz`, `.tgz` and return the name minus
the extension; an unknown extension hits `assert False`, modelled as
`none`. -/
def extract (bn : String) : Option String :=
  if strEndsWith bn ".zip" then some (strDropRight bn 4)
  else if strEndsWith bn ".tar.gz" then some (strDropRight bn 7)
  else if strEndsWith bn ".tgz" then some (strDropRight bn 4)
  else none

/-- Model of Python `'%.1f' % q`: fixed-point rendering with one decimal
digit, used in the `'\n\nTime: %.1f seconds'` suffix (`run.py` line 169). -/
def fmtFixed1 (q : ℚ) : String :=
  let t : Int := ⌊q * 10 + 1 / 2⌋
  toString (t / 10) ++ "." ++ toString (t % 10)

/-- The `SKIPPED` result built at `run.py` lines 141-142. -/
def skipResult (env : Env) (name version description : String) : PackageResult :=
  ⟨name, version, .int 0, "SKIPPED", "Skipped", description,
    env.timing.skipStamp - env.timing.start⟩

/-- The `NO SOURCE` result built at `run.py` lines 147-149. -/
def noSourceResult (env : Env) (name version description : String) : PackageResult :=
  ⟨name, version, .int 1, "NO SOURCE", "No sdist found", description,
    env.timing.noSourceStamp - env.timing.start⟩

/-- The `(status_code, output)` pair produced by the `try`/`except` block
around `f.result(timeout=5 * 60)` (`run.py` lines 153-166). -/
def toxClassify (aw : ToxAwait) : StatusCode × String :=
  match aw with
  | .completed sub => (StatusCode.int (run_tox sub).1, (run_tox sub).2)
  | .timedOut => (StatusCode.int 1, "tox run timed out")
  | .raised tr => (StatusCode.error, "traceback:\n" ++ tr)

/-- The `PackageResult` built at `run.py` lines 169-171 once the tox stage
has run: the `(status_code, output)` pair from the `try`/`except` block,
the elapsed-time suffix appended to the output, and
`status = 'PASSED' if status_code == 0 else 'FAILED'` (line 170). -/
def toxStageResult (env : Env) (name version description : String) :
    PackageResult :=
  let sc := toxClassify env.toxAwait
  ⟨name, version, sc.1,
    (if sc.1 = StatusCode.int 0 then "PASSED" else "FAILED"),
    sc.2 ++ "\n\nTime: " ++
      fmtFixed1 (env.timing.outputStamp - env.timing.start) ++ " seconds",
    description, env.timing.returnStamp - env.timing.start⟩

/-- Lines 144-171 of `run.py`: the pipeline after the skip check — resolve
and download the sdist, classify `NO SOURCE` when there is none, extract
the archive, then run tox under the five-minute deadline and classify the
result. -/
def mainStage (env : Env) (name version description : String) :
    Except PyExn (PackageResult × Effects) :=
  match download_package env.retrieve env.release_urls with
  | .error e => .error e
  | .ok none => .ok (noSourceResult env name version description, ⟨0, 0⟩)
  | .ok (some bn) =>
    match extract bn with
    | none => .error (.assertionError ("could not extract " ++ bn))
    | some _directory =>
      .ok (toxStageResult env name version description, ⟨1, 1⟩)

/-- Python truthiness of `os.environ.get('PLUGINCOMPAT_SITE')` at
`run.py` line 137: unset or the empty string are falsy. -/
def siteConfigured (s : Option String) : Bool :=
  match s with
  | none => false
  | some u => u ≠ ""

/-- Function `process_package` (`run.py` lines 129-171): the whole
per-plugin pipeline.  Only the `try`/`except` of the tox stage catches
exceptions; the skip check, the download and the extraction are outside
it. -/
def process_package (env : Env) (name version description : String) :
    Except PyExn (PackageResult × Effects) :=
  if siteConfigured env.plugincompat_site then
    match env.skipResponse with
    | .error m => .error (.requestsExc m)
    | .ok code =>
      if code = 200 then .ok (skipResult env name version description, ⟨0, 0⟩)
      else mainStage env name version description
  else
    mainStage env name version description

/-- Key of the `test_results` dict: the `(name, version)` tuple
(`run.py` line 212). -/
abbrev Key := String × String

/-- Value stored in `test_results`: the
`(status_code, output, description)` triple (`run.py` line 213). -/
abbrev RetainedVal := StatusCode × String × String

/-- The dict key of a completed result. -/
def resultKey (r : PackageResult) : Key := (r.name, r.version)

/-- The dict value of a completed result. -/
def resultVal (r : PackageResult) : RetainedVal :=
  (r.status_code, r.output, r.description)

/-- Python dict assignment `m[k] = v` on an insertion-ordered association
list: overwrite in place when the key exists, append otherwise. -/
def upsert (m : List (Key × RetainedVal)) (k : Key) (v : RetainedVal) :
    List (Key × RetainedVal) :=
  match m with
  | [] => [(k, v)]
  | (k', v') :: rest =>
    if k' = k then (k, v) :: rest else (k', v') :: upsert rest k v

/-- The `as_completed` drain loop of `main` (`run.py` lines 204-213): every
completed result whose status is not `'SKIPPED'` is stored into the
`test_results` dict under its `(name, version)` key.  `rs` is the list of
results in completion order. -/
def retainResults (rs : List PackageResult) : List (Key × RetainedVal) :=
  rs.foldl
    (fun m r =>
      if r.status ≠ "SKIPPED" then upsert m (resultKey r) (resultVal r) else m)
    []

/-- Python dict lookup on the association list. -/
def lookupKey (m : List (Key × RetainedVal)) (k : Key) : Option RetainedVal :=
  match m with
  | [] => none
  | (k', v) :: rest => if k' = k then some v else lookupKey rest k

/-- Python string comparison `a < b`: lexicographic over the Unicode code
points of the characters. -/
def strLtB : List Char → List Char → Bool
  | [], [] => false
  | [], _ :: _ => true
  | _ :: _, [] => false
  | a :: as, b :: bs =>
    if a.toNat < b.toNat then true
    else if b.toNat < a.toNat then false
    else strLtB as bs

/-- Python comparison `x <= y` of `(name, version)` string tuples, as used
by `sorted(test_results)` (`run.py` line 226): lexicographic on the tuple,
strings compared by code points. -/
def keyLeB (x y : Key) : Bool :=
  if strLtB x.1.data y.1.data then true
  else if strLtB y.1.data x.1.data then false
  else if strLtB x.2.data y.2.data then true
  else if strLtB y.2.data x.2.data then false
  else true

/-- The sorting relation of `sorted(test_results)` as a proposition. -/
def keyLe (a b : Key) : Prop :=
  keyLeB a b = true

instance : DecidableRel keyLe := fun a b =>
  inferInstanceAs (Decidable (keyLeB a b = true))

/-- One entry of the posted `results` list (`run.py` lines 235-244). -/
structure ReportEntry where
  name : String
  version : String
  env : String
  pytest : String
  status : String
  output : String
  description : String
deriving DecidableEq, Repr

/-- The report entry built for one sorted key (`run.py` lines 226-244):
`status` is `'ok'` when the stored `status_code` equals `0`, `'fail'`
otherwise (lines 228-231). -/
def mkEntry (tox_env pytest_version : String) (k : Key) (v : RetainedVal) :
    ReportEntry :=
  ⟨k.1, k.2, tox_env, pytest_version,
    if v.1 = StatusCode.int 0 then "ok" else "fail", v.2.1, v.2.2⟩

/-- The report-shaping loop of `main` (`run.py` lines 225-244): iterate the
`test_results` keys in sorted order and build one entry per key from the
stored triple. -/
def buildReport (tox_env pytest_version : String) (rs : List PackageResult) :
    List ReportEntry :=
  let m := retainResults rs
  let ks := List.insertionSort keyLe (m.map Prod.fst)
  ks.filterMap (fun k => (lookupKey m k).map (mkEntry tox_env pytest_version k))

/-- The `Run:` summary counter (`run.py` line 223): the number of retained
(non-skipped) results. -/
def runCount (rs : List PackageResult) : Nat := (retainResults rs).length

/-- The `Skipped:` summary counter (`run.py` line 222): total number of
plugins minus the number of retained results. -/
def skipCount (total : Nat) (rs : List PackageResult) : Nat :=
  total - runCount rs

/-- The results that the drain loop keeps: those whose status is not
`'SKIPPED'` (`run.py` line 211). -/
def completedResults (rs : List PackageResult) : List PackageResult :=
  rs.filter (fun r => r.status ≠ "SKIPPED")

/-! ## Concrete fixtures used to instantiate the theorems -/

/-- A clock that never advances: every stamp at instant `0`. -/
def timingZero : Timing := ⟨0, 0, 0, 0, 0, 0⟩

/-- A clock trace for a timed-out run: `f.result(timeout=5 * 60)` raises
exactly at the deadline, as do the two later `get_elapsed()` calls. -/
def timingTimeout : Timing := ⟨0, 0, 0, 5 * 60, 5 * 60, 5 * 60⟩

/-- A source-distribution artifact descriptor. -/
def sdistUrl : UrlData :=
  ⟨"https://files.example.org/p/p-1.0.tar.gz", "sdist"⟩

/-- A binary-wheel artifact descriptor (not an sdist). -/
def wheelUrl : UrlData :=
  ⟨"https://files.example.org/p/p-1.0-py3-none-any.whl", "bdist_wheel"⟩

/-- No remote site configured; one sdist; tox completes with exit code 0. -/
def envCompleted : Env :=
  ⟨none, .ok 0, [sdistUrl], .ok (), .completed (.ok "tox output"), timingZero⟩

/-- No remote site configured; one sdist; tox completes with exit code 1
via a `CalledProcessError`. -/
def envFailed : Env :=
  ⟨none, .ok 0, [sdistUrl], .ok (),
    .completed (.calledProcessError 1 "tox failure output"), timingZero⟩

/-- Remote site configured and the skip check answers HTTP 200. -/
def envSkip : Env :=
  ⟨some "https://plugincompat.example.org", .ok 200, [sdistUrl], .ok (),
    .completed (.ok "tox output"), timingZero⟩

/-- Remote site configured and `requests.get` raises in the skip check. -/
def envSkipErr : Env :=
  ⟨some "https://plugincompat.example.org", .error "connection refused",
    [sdistUrl], .ok (), .completed (.ok "tox output"), timingZero⟩

/-- No remote site; waiting on the tox future raises an unexpected
exception whose traceback text is `"boom"`. -/
def envRaised : Env :=
  ⟨none, .ok 0, [sdistUrl], .ok (), .raised "boom", timingZero⟩

/-- No remote site; the tox future times out after the five-minute
deadline. -/
def envTimeout : Env :=
  ⟨none, .ok 0, [sdistUrl], .ok (), .timedOut, timingTimeout⟩

/-- No remote site; the package index offers only a wheel, no sdist. -/
def envNoSdist : Env :=
  ⟨none, .ok 0, [wheelUrl], .ok (), .completed (.ok "tox output"), timingZero⟩

/-- The `NO SOURCE` result produced for `envNoSdist`. -/
def resNoSrc : PackageResult := noSourceResult envNoSdist "p" "1.0" "d"

/-- A completed passing result with key `("alpha", "1.0")`. -/
def resA : PackageResult :=
  ⟨"alpha", "1.0", .int 0, "PASSED", "out-a", "da", 1⟩

/-- A completed failing result with key `("beta", "2.0")`. -/
def resB : PackageResult :=
  ⟨"beta", "2.0", .int 1, "FAILED", "out-b", "db", 2⟩

/-- A skipped result with key `("gamma", "3.0")`. -/
def resSkipped : PackageResult :=
  ⟨"gamma", "3.0", .int 0, "SKIPPED", "Skipped", "dg", 0⟩

/-! ## Properties of the sorting relation -/

theorem strLtB_irrefl (as : List Char) : strLtB as as = false := by
  induction as with
  | nil => rfl
  | cons a as ih => simp [strLtB, ih]

theorem strLtB_eq_of_not (as : List Char) :
    ∀ bs, strLtB as bs = false → strLtB bs as = false → as = bs := by
  induction as with
  | nil =>
    intro bs h1 _
    cases bs with
    | nil => rfl
    | cons b bs => simp [strLtB] at h1
  | cons a as ih =>
    intro bs h1 h2
    cases bs with
    | nil => simp [strLtB] at h2
    | cons b bs =>
      by_cases hab : a.toNat < b.toNat
      · simp [strLtB, hab] at h1
      · by_cases hba : b.toNat < a.toNat
        · simp [strLtB, hba] at h2
        · simp [strLtB, hab, hba] at h1 h2
          have hn : a.toNat = b.toNat := by omega
          have he : a = b := Char.eq_of_val_eq (UInt32.ext hn)
          rw [he, ih bs h1 h2]

theorem strLtB_asymm (as : List Char) :
    ∀ bs, strLtB as bs = true → strLtB bs as = false := by
  induction as with
  | nil =>
    intro bs _
    cases bs with
    | nil => rfl
    | cons b bs => rfl
  | cons a as ih =>
    intro bs h
    cases bs with
    | nil => simp [strLtB] at h
    | cons b bs =>
      by_cases hab : a.toNat < b.toNat
      · simp [strLtB, hab, Nat.lt_asymm hab]
      · by_cases hba : b.toNat < a.toNat
        · simp [strLtB, hab, hba] at h
        · simp [strLtB, hab, hba] at h ⊢
          exact ih bs h

theorem strLtB_trans (as : List Char) :
    ∀ bs cs, strLtB as bs = true → strLtB bs cs = true → strLtB as cs = true := by
  induction as with
  | nil =>
    intro bs cs h1 h2
    cases cs with
    | nil =>
      cases bs with
      | nil => exact h1
      | cons b bs => simp [strLtB] at h2
    | cons c cs => rfl
  | cons a as ih =>
    intro bs cs h1 h2
    cases bs with
    | nil => simp [strLtB] at h1
    | cons b bs =>
      cases cs with
      | nil => simp [strLtB] at h2
      | cons c cs =>
        by_cases hab : a.toNat < b.toNat
        · by_cases hbc : b.toNat < c.toNat
          · simp [strLtB, Nat.lt_trans hab hbc]
          · by_cases hcb : c.toNat < b.toNat
            · simp [strLtB, hbc, hcb] at h2
            · have : b.toNat = c.toNat := by omega
              simp [strLtB, this ▸ hab]
        · by_cases hba : b.toNat < a.toNat
          · simp [strLtB, hab, hba] at h1
          · have hEq : a.toNat = b.toNat := by omega
            by_cases hbc : b.toNat < c.toNat
            · simp [strLtB, hEq ▸ hbc]
            · by_cases hcb : c.toNat < b.toNat
              · simp [strLtB, hbc, hcb] at h2
              · simp [strLtB, hab, hba] at h1
                simp [strLtB, hbc, hcb] at h2
                have hac : ¬a.toNat < c.toNat := by omega
                have hca : ¬c.toNat < a.toNat := by omega
                simp [strLtB, hac, hca]
                exact ih bs cs h1 h2

theorem keyLe_total (a b : Key) : keyLe a b ∨ keyLe b a := by
  unfold keyLe keyLeB
  by_cases h1 : strLtB a.1.data b.1.data = true
  · simp [h1]
  · by_cases h2 : strLtB b.1.data a.1.data = true
    · simp [h1, h2]
    · by_cases h3 : strLtB a.2.data b.2.data = true
      · simp [h1, h2, h3]
      · by_cases h4 : strLtB b.2.data a.2.data = true
        · simp [h1, h2, h3, h4]
        · simp [h1, h2, h3, h4]

theorem keyLe_iff (a b : Key) :
    keyLe a b ↔
      strLtB a.1.data b.1.data = true ∨
        (a.1 = b.1 ∧ (strLtB a.2.data b.2.data = true ∨ a.2 = b.2)) := by
  unfold keyLe keyLeB
  constructor
  · intro h
    by_cases h1 : strLtB a.1.data b.1.data = true
    · exact Or.inl h1
    · by_cases h2 : strLtB b.1.data a.1.data = true
      · simp [h1, h2] at h
      · have e1 : a.1 = b.1 :=
          String.ext (strLtB_eq_of_not _ _ (by simpa using h1) (by simpa using h2))
        by_cases h3 : strLtB a.2.data b.2.data = true
        · exact Or.inr ⟨e1, Or.inl h3⟩
        · by_cases h4 : strLtB b.2.data a.2.data = true
          · simp [h1, h2, h3, h4] at h
          · have e2 : a.2 = b.2 :=
              String.ext (strLtB_eq_of_not _ _ (by simpa using h3) (by simpa using h4))
            exact Or.inr ⟨e1, Or.inr e2⟩
  · intro h
    rcases h with h1 | ⟨e1, h2⟩
    · simp [h1]
    · rw [e1] at *
      simp [strLtB_irrefl]
      rcases h2 with h3 | e2
      · simp [h3]
      · rw [e2]
        simp [strLtB_irrefl]

theorem keyLe_trans (a b c : Key) (hab : keyLe a b) (hbc : keyLe b c) :
    keyLe a c := by
  rw [keyLe_iff] at hab hbc ⊢
  rcases hab with h1 | ⟨e1, h2⟩
  · rcases hbc with h1' | ⟨e1', _⟩
    · exact Or.inl (strLtB_trans _ _ _ h1 h1')
    · exact Or.inl (e1' ▸ h1)
  · rcases hbc with h1' | ⟨e1', h2'⟩
    · exact Or.inl (e1 ▸ h1')
    · refine Or.inr ⟨e1.trans e1', ?_⟩
      rcases h2 with h3 | e2
      · rcases h2' with h3' | e2'
        · exact Or.inl (strLtB_trans _ _ _ h3 h3')
        · exact Or.inl (e2' ▸ h3)
      · rcases h2' with h3' | e2'
        · exact Or.inl (e2 ▸ h3')
        · exact Or.inr (e2.trans e2')

theorem keyLe_antisymm (a b : Key) (hab : keyLe a b) (hba : keyLe b a) :
    a = b := by
  rw [keyLe_iff] at hab hba
  rcases hab with h1 | ⟨e1, h2⟩
  · rcases hba with h1' | ⟨e1', _⟩
    · have := strLtB_asymm _ _ h1
      rw [h1'] at this
      cases this
    · rw [e1', strLtB_irrefl] at h1
      cases h1
  · rcases hba with h1' | ⟨_, h2'⟩
    · rw [e1, strLtB_irrefl] at h1'
      cases h1'
    · rcases h2 with h3 | e2
      · rcases h2' with h3' | e2'
        · have := strLtB_asymm _ _ h3
          rw [h3'] at this
          cases this
        · rw [e2', strLtB_irrefl] at h3
          cases h3
      · exact Prod.ext e1 e2

/-! ## Inversion lemmas for the pipeline -/

theorem download_package_cons (retrieve : Except String Unit) (u : UrlData)
    (rest : List UrlData) :
    download_package retrieve (u :: rest) =
      if u.packagetype = "sdist" then
        (match retrieve with
          | .ok _ => .ok (some (basename u.url))
          | .error m => .error (.urlretrieveExc m))
      else download_package retrieve rest := rfl

theorem download_package_none (retrieve : Except String Unit) :
    ∀ urls : List UrlData, (∀ u ∈ urls, u.packagetype ≠ "sdist") →
      download_package retrieve urls = .ok none := by
  intro urls h
  induction urls with
  | nil => rfl
  | cons u rest ih =>
    rw [download_package_cons, if_neg (h u (List.mem_cons_self u rest))]
    exact ih fun v hv => h v (List.mem_cons_of_mem u hv)

theorem toxStageResult_status (env : Env) (name version description : String) :
    (toxStageResult env name version description).status =
      if (toxClassify env.toxAwait).1 = StatusCode.int 0 then "PASSED"
      else "FAILED" := rfl

theorem toxStageResult_code (env : Env) (name version description : String) :
    (toxStageResult env name version description).status_code =
      (toxClassify env.toxAwait).1 := rfl

theorem process_ok_elim {env : Env} {name version description : String}
    {r : PackageResult} {eff : Effects}
    (hok : process_package env name version description = .ok (r, eff)) :
    (r = skipResult env name version description ∧ eff = ⟨0, 0⟩) ∨
    mainStage env name version description = .ok (r, eff) := by
  unfold process_package at hok
  split at hok
  · split at hok
    · exact absurd hok (by simp)
    · split at hok
      · simp only [Except.ok.injEq, Prod.mk.injEq] at hok
        exact Or.inl ⟨hok.1.symm, hok.2.symm⟩
      · exact Or.inr hok
  · exact Or.inr hok

theorem mainStage_ok_elim {env : Env} {name version description : String}
    {r : PackageResult} {eff : Effects}
    (hok : mainStage env name version description = .ok (r, eff)) :
    (r = noSourceResult env name version description ∧ eff = ⟨0, 0⟩) ∨
    (r = toxStageResult env name version description ∧ eff = ⟨1, 1⟩) := by
  unfold mainStage at hok
  split at hok
  · exact absurd hok (by simp)
  · simp only [Except.ok.injEq, Prod.mk.injEq] at hok
    exact Or.inl ⟨hok.1.symm, hok.2.symm⟩
  · split at hok
    · exact absurd hok (by simp)
    · simp only [Except.ok.injEq, Prod.mk.injEq] at hok
      exact Or.inr ⟨hok.1.symm, hok.2.symm⟩

/-! ## Claims about the per-plugin pipeline -/

/-- C1: for every completed (non-skipped, non-error) run of the per-plugin
pipeline — the tox future completed normally — the produced outcome has
status `PASSED` iff its status code is `0`, status `FAILED` iff its status
code is a nonzero integer, and these two labels are exhaustive and
mutually exclusive. -/
theorem completed_run_passed_iff_zero (env : Env)
    (name version description : String) (r : PackageResult) (eff : Effects)
    (sub : SubprocessOutcome)
    (hok : process_package env name version description = .ok (r, eff))
    (hcomp : env.toxAwait = .completed sub)
    (hns : r.status ≠ "SKIPPED") (hnn : r.status ≠ "NO SOURCE") :
    (r.status = "PASSED" ↔ r.status_code = StatusCode.int 0) ∧
    (r.status = "FAILED" ↔
      ∃ n : Int, n ≠ 0 ∧ r.status_code = StatusCode.int n) ∧
    (r.status = "PASSED" ∨ r.status = "FAILED") ∧
    ¬(r.status = "PASSED" ∧ r.status = "FAILED") := by
  rcases process_ok_elim hok with ⟨hr, _⟩ | hmain
  · rw [hr] at hns
    exact absurd rfl hns
  · rcases mainStage_ok_elim hmain with ⟨hr, _⟩ | ⟨hr, _⟩
    · rw [hr] at hnn
      exact absurd rfl hnn
    · subst hr
      have h1 : (toxClassify env.toxAwait).1 =
          StatusCode.int (run_tox sub).1 := by
        rw [hcomp]
        rfl
      rw [toxStageResult_status, toxStageResult_code, h1]
      by_cases h0 : (run_tox sub).1 = 0
      · rw [h0, if_pos rfl]
        refine ⟨by simp, ?_, Or.inl rfl, by decide⟩
        constructor
        · intro h
          exact absurd h (by decide)
        · rintro ⟨n, hn, he⟩
          simp only [StatusCode.int.injEq] at he
          exact absurd he.symm hn
      · rw [if_neg (by simpa using h0)]
        refine ⟨?_, ?_, Or.inr rfl, by decide⟩
        · constructor
          · intro h
            exact absurd h (by decide)
          · intro h
            simp only [StatusCode.int.injEq] at h
            exact absurd h h0
        · exact ⟨fun _ => ⟨(run_tox sub).1, h0, rfl⟩, fun _ => rfl⟩

/-- Witness for C1 at the concrete environment `envCompleted`, in which
tox completes with exit code `0`. -/
theorem completed_run_passed_iff_zero_witness :
    ((toxStageResult envCompleted "p" "1.0" "d").status = "PASSED" ↔
      (toxStageResult envCompleted "p" "1.0" "d").status_code =
        StatusCode.int 0) ∧
    ((toxStageResult envCompleted "p" "1.0" "d").status = "FAILED" ↔
      ∃ n : Int, n ≠ 0 ∧
        (toxStageResult envCompleted "p" "1.0" "d").status_code =
          StatusCode.int n) ∧
    ((toxStageResult envCompleted "p" "1.0" "d").status = "PASSED" ∨
      (toxStageResult envCompleted "p" "1.0" "d").status = "FAILED") ∧
    ¬((toxStageResult envCompleted "p" "1.0" "d").status = "PASSED" ∧
      (toxStageResult envCompleted "p" "1.0" "d").status = "FAILED") :=
  completed_run_passed_iff_zero envCompleted "p" "1.0" "d"
    (toxStageResult envCompleted "p" "1.0" "d") ⟨1, 1⟩
    (SubprocessOutcome.ok "tox output") rfl rfl (by decide) (by decide)

/-- C2 counterexample: in `envRaised` the wait on the tox future raises an
unexpected exception, yet the produced outcome's status label is
`"FAILED"`, not `ERROR` — `run.py` line 170 computes
`'PASSED' if status_code == 0 else 'FAILED'` and no `ERROR` label exists
in the code. -/
theorem raised_exception_not_labelled_error :
    envRaised.toxAwait = ToxAwait.raised "boom" ∧
    process_package envRaised "p" "1.0" "d" =
      .ok (toxStageResult envRaised "p" "1.0" "d", ⟨1, 1⟩) ∧
    (toxStageResult envRaised "p" "1.0" "d").status_code = StatusCode.error ∧
    (toxStageResult envRaised "p" "1.0" "d").status = "FAILED" ∧
    (toxStageResult envRaised "p" "1.0" "d").status ≠ "ERROR" :=
  ⟨rfl, rfl, rfl, rfl, by decide⟩

/-- C2 (amended): when the wait on the tox future raises an unexpected
exception (other than the timeout), the outcome has the sentinel status
code `"error"` and an output starting with the captured stack trace, but
its status label is `FAILED` (there is no `ERROR` label). -/
theorem raised_exception_outcome (env : Env)
    (name version description : String) (r : PackageResult) (eff : Effects)
    (tr : String)
    (hok : process_package env name version description = .ok (r, eff))
    (hraised : env.toxAwait = .raised tr)
    (hns : r.status ≠ "SKIPPED") (hnn : r.status ≠ "NO SOURCE") :
    r.status_code = StatusCode.error ∧ r.status = "FAILED" ∧
    (∃ v, r.output.data = "traceback:\n".data ++ tr.data ++ v) := by
  rcases process_ok_elim hok with ⟨hr, _⟩ | hmain
  · rw [hr] at hns
    exact absurd rfl hns
  · rcases mainStage_ok_elim hmain with ⟨hr, _⟩ | ⟨hr, _⟩
    · rw [hr] at hnn
      exact absurd rfl hnn
    · subst hr
      have h1 : (toxClassify env.toxAwait).1 = StatusCode.error := by
        rw [hraised]
        rfl
      have h2 : (toxClassify env.toxAwait).2 = "traceback:\n" ++ tr := by
        rw [hraised]
        rfl
      refine ⟨?_, ?_, ?_⟩
      · rw [toxStageResult_code, h1]
      · rw [toxStageResult_status, h1, if_neg (by decide)]
      · refine ⟨("\n\nTime: " ++
          fmtFixed1 (env.timing.outputStamp - env.timing.start) ++
          " seconds").data, ?_⟩
        show ((toxClassify env.toxAwait).2 ++ "\n\nTime: " ++
          fmtFixed1 (env.timing.outputStamp - env.timing.start) ++
          " seconds").data = _
        rw [h2]
        simp [String.data_append]

/-- Witness for the amended C2 at the concrete environment `envRaised`. -/
theorem raised_exception_outcome_witness :
    (toxStageResult envRaised "p" "1.0" "d").status_code =
      StatusCode.error ∧
    (toxStageResult envRaised "p" "1.0" "d").status = "FAILED" ∧
    (∃ v, (toxStageResult envRaised "p" "1.0" "d").output.data =
      "traceback:\n".data ++ "boom".data ++ v) :=
  raised_exception_outcome envRaised "p" "1.0" "d"
    (toxStageResult envRaised "p" "1.0" "d") ⟨1, 1⟩ "boom"
    rfl rfl (by decide) (by decide)

/-- C3 counterexample: when `requests.get` raises in the skip check of
`envSkipErr`, the exception propagates out of `process_package` — the
pipeline does not convert every per-job exception into an outcome. -/
theorem skip_check_exception_propagates :
    process_package envSkipErr "p" "1.0" "d" =
      .error (PyExn.requestsExc "connection refused") := rfl

/-- C3 (amended): only exceptions raised while waiting on the tox future
are caught and converted into a classified outcome — once the skip check,
the download and the extraction have gone through, the pipeline returns an
outcome for every behaviour of the tox stage, including an unexpected
exception; exceptions from the skip-check, download, or unpack stages
propagate out of the pipeline. -/
theorem tox_stage_never_raises (env : Env)
    (name version description bn dir : String)
    (hsite : siteConfigured env.plugincompat_site = false ∨
      ∃ c, env.skipResponse = .ok c ∧ c ≠ 200)
    (hdl : download_package env.retrieve env.release_urls = .ok (some bn))
    (hex : extract bn = some dir) :
    process_package env name version description =
      .ok (toxStageResult env name version description, ⟨1, 1⟩) := by
  have hmain : mainStage env name version description =
      .ok (toxStageResult env name version description, ⟨1, 1⟩) := by
    unfold mainStage
    rw [hdl]
    simp only [hex]
  unfold process_package
  rcases hsite with hs | ⟨c, hr, hc⟩
  · rw [if_neg (by simp [hs])]
    exact hmain
  · by_cases hs : siteConfigured env.plugincompat_site = true
    · rw [if_pos hs, hr]
      simp only [hc, ite_false]
      exact hmain
    · rw [if_neg hs]
      exact hmain

/-- Witness for the amended C3 at `envRaised`: the tox future raises, yet
`process_package` returns an outcome. -/
theorem tox_stage_never_raises_witness :
    process_package envRaised "p" "1.0" "d" =
      .ok (toxStageResult envRaised "p" "1.0" "d", ⟨1, 1⟩) :=
  tox_stage_never_raises envRaised "p" "1.0" "d" "p-1.0.tar.gz" "p-1.0"
    (Or.inl rfl) rfl rfl

/-- C4: when the tox future times out, the outcome is `FAILED` with status
code `1`, its output contains `"timed out"`, and the recorded elapsed time
is at least the five-minute timeout (the wait returns no earlier than
`start + TIMEOUT_SECONDS`, and the final clock reading is no earlier than
the end of the wait). -/
theorem timeout_outcome (env : Env)
    (name version description : String) (r : PackageResult) (eff : Effects)
    (hok : process_package env name version description = .ok (r, eff))
    (hto : env.toxAwait = .timedOut)
    (hns : r.status ≠ "SKIPPED") (hnn : r.status ≠ "NO SOURCE")
    (hwait : env.timing.start + TIMEOUT_SECONDS ≤ env.timing.waitEnd)
    (hret : env.timing.waitEnd ≤ env.timing.returnStamp) :
    r.status = "FAILED" ∧ r.status_code = StatusCode.int 1 ∧
    (∃ u v, r.output.data = u ++ "timed out".data ++ v) ∧
    TIMEOUT_SECONDS ≤ r.elapsed := by
  rcases process_ok_elim hok with ⟨hr, _⟩ | hmain
  · rw [hr] at hns
    exact absurd rfl hns
  · rcases mainStage_ok_elim hmain with ⟨hr, _⟩ | ⟨hr, _⟩
    · rw [hr] at hnn
      exact absurd rfl hnn
    · subst hr
      have h1 : (toxClassify env.toxAwait).1 = StatusCode.int 1 := by
        rw [hto]
        rfl
      have h2 : (toxClassify env.toxAwait).2 = "tox run timed out" := by
        rw [hto]
        rfl
      refine ⟨?_, ?_, ?_, ?_⟩
      · rw [toxStageResult_status, h1, if_neg (by decide)]
      · rw [toxStageResult_code, h1]
      · refine ⟨"tox run ".data, ("\n\nTime: " ++
          fmtFixed1 (env.timing.outputStamp - env.timing.start) ++
          " seconds").data, ?_⟩
        show ((toxClassify env.toxAwait).2 ++ "\n\nTime: " ++
          fmtFixed1 (env.timing.outputStamp - env.timing.start) ++
          " seconds").data = _
        rw [h2]
        simp [String.data_append]
      · show TIMEOUT_SECONDS ≤ env.timing.returnStamp - env.timing.start
        linarith

/-- Witness for C4 at the concrete environment `envTimeout`, whose clock
trace has the wait end exactly at the deadline. -/
theorem timeout_outcome_witness :
    (toxStageResult envTimeout "p" "1.0" "d").status = "FAILED" ∧
    (toxStageResult envTimeout "p" "1.0" "d").status_code =
      StatusCode.int 1 ∧
    (∃ u v, (toxStageResult envTimeout "p" "1.0" "d").output.data =
      u ++ "timed out".data ++ v) ∧
    TIMEOUT_SECONDS ≤ (toxStageResult envTimeout "p" "1.0" "d").elapsed :=
  timeout_outcome envTimeout "p" "1.0" "d"
    (toxStageResult envTimeout "p" "1.0" "d") ⟨1, 1⟩
    rfl rfl (by decide) (by decide)
    (by simp [envTimeout, timingTimeout, TIMEOUT_SECONDS])
    (le_refl _)

/-- C6: when the package index returns no `sdist` artifact — whatever the
other artifact types present — the outcome is `NO SOURCE` with status code
`1` and the fixed message `"No sdist found"`. -/
theorem no_sdist_outcome (env : Env)
    (name version description : String) (r : PackageResult) (eff : Effects)
    (hok : process_package env name version description = .ok (r, eff))
    (hnosdist : ∀ u ∈ env.release_urls, u.packagetype ≠ "sdist")
    (hns : r.status ≠ "SKIPPED") :
    r = noSourceResult env name version description ∧
    r.status = "NO SOURCE" ∧ r.status_code = StatusCode.int 1 ∧
    r.output = "No sdist found" := by
  rcases process_ok_elim hok with ⟨hr, _⟩ | hmain
  · rw [hr] at hns
    exact absurd rfl hns
  · unfold mainStage at hmain
    rw [download_package_none _ _ hnosdist] at hmain
    simp only [Except.ok.injEq, Prod.mk.injEq] at hmain
    rw [← hmain.1]
    exact ⟨rfl, rfl, rfl, rfl⟩

/-- Witness for C6 at the concrete environment `envNoSdist`, whose index
answer holds a wheel but no sdist. -/
theorem no_sdist_outcome_witness :
    resNoSrc = noSourceResult envNoSdist "p" "1.0" "d" ∧
    resNoSrc.status = "NO SOURCE" ∧
    resNoSrc.status_code = StatusCode.int 1 ∧
    resNoSrc.output = "No sdist found" :=
  no_sdist_outcome envNoSdist "p" "1.0" "d" resNoSrc ⟨0, 0⟩
    rfl (by decide) (by decide)

/-- C7: when the remote skip check answers HTTP 200, the pipeline performs
zero download calls and zero tox invocations — the effect counters are
both `0` — and the outcome is `SKIPPED`. -/
theorem skip_short_circuit (env : Env) (name version description : String)
    (hsite : siteConfigured env.plugincompat_site = true)
    (h200 : env.skipResponse = .ok 200) :
    process_package env name version description =
      .ok (skipResult env name version description, ⟨0, 0⟩) ∧
    (skipResult env name version description).status = "SKIPPED" := by
  refine ⟨?_, rfl⟩
  unfold process_package
  rw [if_pos hsite, h200]
  rfl

/-- Witness for C7 at the concrete environment `envSkip`. -/
theorem skip_short_circuit_witness :
    process_package envSkip "p" "1.0" "d" =
      .ok (skipResult envSkip "p" "1.0" "d", ⟨0, 0⟩) ∧
    (skipResult envSkip "p" "1.0" "d").status = "SKIPPED" :=
  skip_short_circuit envSkip "p" "1.0" "d" rfl rfl

/-- C10: every `SKIPPED` outcome has status code `0` and output
`"Skipped"`; consequently a status code of `0` does not imply the
`PASSED` label when quantifying over all outcomes. -/
theorem skipped_code_zero_not_passed :
    (∀ (env : Env) (name version description : String)
        (r : PackageResult) (eff : Effects),
      process_package env name version description = .ok (r, eff) →
      r.status = "SKIPPED" →
      r.status_code = StatusCode.int 0 ∧ r.output = "Skipped") ∧
    (∃ (env : Env) (r : PackageResult) (eff : Effects),
      process_package env "p" "1.0" "d" = .ok (r, eff) ∧
      r.status_code = StatusCode.int 0 ∧ r.status ≠ "PASSED") := by
  constructor
  · intro env name version description r eff hok hskip
    rcases process_ok_elim hok with ⟨hr, _⟩ | hmain
    · rw [hr]
      exact ⟨rfl, rfl⟩
    · rcases mainStage_ok_elim hmain with ⟨hr, _⟩ | ⟨hr, _⟩
      · rw [hr] at hskip
        exact absurd (show ("NO SOURCE" : String) = "SKIPPED" from hskip)
          (by decide)
      · rw [hr, toxStageResult_status] at hskip
        by_cases h0 : (toxClassify env.toxAwait).1 = StatusCode.int 0
        · rw [if_pos h0] at hskip
          exact absurd hskip (by decide)
        · rw [if_neg h0] at hskip
          exact absurd hskip (by decide)
  · exact ⟨envSkip, skipResult envSkip "p" "1.0" "d", ⟨0, 0⟩,
      rfl, rfl, by decide⟩

/-- Witness for C10 at the concrete environment `envSkip`. -/
theorem skipped_code_zero_not_passed_witness :
    (skipResult envSkip "p" "1.0" "d").status_code = StatusCode.int 0 ∧
    (skipResult envSkip "p" "1.0" "d").output = "Skipped" :=
  skipped_code_zero_not_passed.1 envSkip "p" "1.0" "d"
    (skipResult envSkip "p" "1.0" "d") ⟨0, 0⟩ rfl rfl

/-! ## Lemmas about the result aggregation and report shaping -/

theorem upsert_cons (k' : Key) (v' : RetainedVal)
    (rest : List (Key × RetainedVal)) (k : Key) (v : RetainedVal) :
    upsert ((k', v') :: rest) k v =
      if k' = k then (k, v) :: rest else (k', v') :: upsert rest k v := rfl

theorem upsert_of_not_mem (m : List (Key × RetainedVal)) (k : Key)
    (v : RetainedVal) (h : k ∉ m.map Prod.fst) :
    upsert m k v = m ++ [(k, v)] := by
  induction m with
  | nil => rfl
  | cons p rest ih =>
    obtain ⟨k', v'⟩ := p
    simp only [List.map_cons, List.mem_cons] at h
    push_neg at h
    rw [upsert_cons, if_neg fun he => h.1 he.symm, ih h.2]
    rfl

theorem lookupKey_cons (k' : Key) (v' : RetainedVal)
    (rest : List (Key × RetainedVal)) (k : Key) :
    lookupKey ((k', v') :: rest) k =
      if k' = k then some v' else lookupKey rest k := rfl

theorem lookupKey_of_not_mem (m : List (Key × RetainedVal)) (k : Key)
    (h : k ∉ m.map Prod.fst) : lookupKey m k = none := by
  induction m with
  | nil => rfl
  | cons p rest ih =>
    obtain ⟨k', v'⟩ := p
    simp only [List.map_cons, List.mem_cons] at h
    push_neg at h
    rw [lookupKey_cons, if_neg fun he => h.1 he.symm]
    exact ih h.2

theorem lookupKey_map_of_mem (l : List PackageResult) (r : PackageResult)
    (hnd : (l.map resultKey).Nodup) (hr : r ∈ l) :
    lookupKey (l.map fun s => (resultKey s, resultVal s)) (resultKey r) =
      some (resultVal r) := by
  induction l with
  | nil => cases hr
  | cons a l ih =>
    simp only [List.map_cons, List.nodup_cons] at hnd
    rcases List.mem_cons.mp hr with rfl | hr'
    · rw [List.map_cons, lookupKey_cons, if_pos rfl]
    · have hne : resultKey a ≠ resultKey r := fun he =>
        hnd.1 (he ▸ List.mem_map_of_mem resultKey hr')
      rw [List.map_cons, lookupKey_cons, if_neg hne]
      exact ih hnd.2 hr'

theorem completedResults_cons_skipped (r : PackageResult)
    (rs : List PackageResult) (hs : r.status = "SKIPPED") :
    completedResults (r :: rs) = completedResults rs := by
  simp [completedResults, List.filter_cons, hs]

theorem completedResults_cons_kept (r : PackageResult)
    (rs : List PackageResult) (hs : r.status ≠ "SKIPPED") :
    completedResults (r :: rs) = r :: completedResults rs := by
  simp [completedResults, List.filter_cons, hs]

theorem retain_fold_eq (rs : List PackageResult) :
    ∀ m : List (Key × RetainedVal),
      ((completedResults rs).map resultKey).Nodup →
      (∀ r ∈ completedResults rs, resultKey r ∉ m.map Prod.fst) →
      rs.foldl
          (fun m r => if r.status ≠ "SKIPPED"
            then upsert m (resultKey r) (resultVal r) else m) m =
        m ++ (completedResults rs).map fun r => (resultKey r, resultVal r) := by
  induction rs with
  | nil =>
    intro m _ _
    simp [completedResults]
  | cons r rs ih =>
    intro m hnd hdisj
    by_cases hs : r.status = "SKIPPED"
    · have hc := completedResults_cons_skipped r rs hs
      rw [List.foldl_cons, if_neg fun hne => hne hs, hc]
      rw [hc] at hnd hdisj
      exact ih m hnd hdisj
    · have hc := completedResults_cons_kept r rs hs
      rw [hc] at hnd hdisj
      simp only [List.map_cons, List.nodup_cons] at hnd
      have hk : resultKey r ∉ m.map Prod.fst :=
        hdisj r (List.mem_cons_self r _)
      have hdisj' : ∀ s ∈ completedResults rs,
          resultKey s ∉ (m ++ [(resultKey r, resultVal r)]).map Prod.fst := by
        intro s hs'
        simp only [List.map_append, List.mem_append, List.map_cons,
          List.map_nil, List.mem_singleton]
        push_neg
        refine ⟨hdisj s (List.mem_cons_of_mem r hs'), fun he => ?_⟩
        exact hnd.1 (he ▸ List.mem_map_of_mem resultKey hs')
      rw [List.foldl_cons, if_pos hs, upsert_of_not_mem m _ _ hk,
        ih (m ++ [(resultKey r, resultVal r)]) hnd.2 hdisj', hc]
      simp

theorem retainResults_eq (rs : List PackageResult)
    (hnd : ((completedResults rs).map resultKey).Nodup) :
    retainResults rs =
      (completedResults rs).map fun r => (resultKey r, resultVal r) := by
  have h := retain_fold_eq rs [] hnd (by simp)
  simpa [retainResults] using h

theorem retain_keys (rs : List PackageResult)
    (hnd : ((completedResults rs).map resultKey).Nodup) :
    (retainResults rs).map Prod.fst = (completedResults rs).map resultKey := by
  rw [retainResults_eq rs hnd, List.map_map]
  rfl

theorem report_keys (te pv : String) (m : List (Key × RetainedVal))
    (ks : List Key) :
    ((ks.filterMap fun k => (lookupKey m k).map (mkEntry te pv k)).map
        fun e => (e.name, e.version)) =
      ks.filter fun k => (lookupKey m k).isSome := by
  induction ks with
  | nil => rfl
  | cons k ks ih =>
    cases h : lookupKey m k with
    | none => simp [List.filterMap_cons, List.filter_cons, h, ih]
    | some v =>
      simp [List.filterMap_cons, List.filter_cons, h, ih, mkEntry]

/-! ## Claims about the final report -/

/-- C5 counterexample: a `NO SOURCE` outcome is not excluded from the
report and not counted by the `Skipped:` counter — the drain loop at
`run.py` line 211 only filters on the `'SKIPPED'` status, so a `NO SOURCE`
result is retained, shows up as a `"fail"` entry, and is counted by the
`Run:` counter. -/
theorem no_source_in_report :
    resNoSrc.status = "NO SOURCE" ∧
    buildReport "py38" "7.0" [resNoSrc] =
      [⟨"p", "1.0", "py38", "7.0", "fail", "No sdist found", "d"⟩] ∧
    runCount [resNoSrc] = 1 ∧
    skipCount 1 [resNoSrc] = 0 :=
  ⟨rfl, by decide, by decide, by decide⟩

/-- C5 (amended): every `NO SOURCE` outcome is retained — it appears in
the final report as a `"fail"` entry and is counted by the `Run:` counter;
only `SKIPPED` outcomes are excluded from the report and counted by the
`Skipped:` counter. -/
theorem no_source_counted_as_run (tox_env pytest_version : String)
    (total : Nat) (rs : List PackageResult) (r : PackageResult)
    (hnd : ((completedResults rs).map resultKey).Nodup)
    (hmem : r ∈ rs) (hstat : r.status = "NO SOURCE")
    (hcode : r.status_code = StatusCode.int 1) :
    mkEntry tox_env pytest_version (resultKey r) (resultVal r) ∈
      buildReport tox_env pytest_version rs ∧
    (mkEntry tox_env pytest_version (resultKey r) (resultVal r)).status =
      "fail" ∧
    r ∈ completedResults rs ∧
    runCount rs = (completedResults rs).length ∧
    skipCount total rs = total - (completedResults rs).length := by
  have hcm : r ∈ completedResults rs := by
    rw [completedResults, List.mem_filter]
    exact ⟨hmem, by rw [hstat]; decide⟩
  have hlk : lookupKey (retainResults rs) (resultKey r) =
      some (resultVal r) := by
    rw [retainResults_eq rs hnd]
    exact lookupKey_map_of_mem _ r hnd hcm
  refine ⟨?_, ?_, hcm, ?_, ?_⟩
  · have hkmem : resultKey r ∈
        List.insertionSort keyLe ((retainResults rs).map Prod.fst) := by
      rw [List.mem_insertionSort, retain_keys rs hnd]
      exact List.mem_map_of_mem resultKey hcm
    show mkEntry tox_env pytest_version (resultKey r) (resultVal r) ∈
      (List.insertionSort keyLe ((retainResults rs).map Prod.fst)).filterMap
        fun k => (lookupKey (retainResults rs) k).map
          (mkEntry tox_env pytest_version k)
    exact List.mem_filterMap.mpr ⟨resultKey r, hkmem, by rw [hlk]; rfl⟩
  · simp [mkEntry, resultVal, hcode]
  · rw [runCount, retainResults_eq rs hnd, List.length_map]
  · rw [skipCount, runCount, retainResults_eq rs hnd, List.length_map]

/-- Witness for the amended C5 with the concrete result list
`[resNoSrc]`. -/
theorem no_source_counted_as_run_witness :
    mkEntry "py38" "7.0" (resultKey resNoSrc) (resultVal resNoSrc) ∈
      buildReport "py38" "7.0" [resNoSrc] ∧
    (mkEntry "py38" "7.0" (resultKey resNoSrc) (resultVal resNoSrc)).status =
      "fail" ∧
    resNoSrc ∈ completedResults [resNoSrc] ∧
    runCount [resNoSrc] = (completedResults [resNoSrc]).length ∧
    skipCount 1 [resNoSrc] = 1 - (completedResults [resNoSrc]).length :=
  no_source_counted_as_run "py38" "7.0" 1 [resNoSrc] resNoSrc (by decide)
    (List.mem_cons_self resNoSrc []) rfl rfl

/-- C8: the final report does not depend on the completion order of the
results, its entries are sorted ascending by the `(name, version)` key,
and every entry's status is `"ok"` when the retained status code is `0`
and `"fail"` otherwise. -/
theorem report_sorted_deterministic (tox_env pytest_version : String)
    (rs rs' : List PackageResult) (hperm : rs.Perm rs')
    (hnd : ((completedResults rs).map resultKey).Nodup) :
    buildReport tox_env pytest_version rs =
      buildReport tox_env pytest_version rs' ∧
    List.Sorted keyLe
      ((buildReport tox_env pytest_version rs).map
        fun e => (e.name, e.version)) ∧
    (∀ e ∈ buildReport tox_env pytest_version rs,
      ∃ v, lookupKey (retainResults rs) (e.name, e.version) = some v ∧
        e.status = if v.1 = StatusCode.int 0 then "ok" else "fail") := by
  haveI : IsTotal Key keyLe := ⟨keyLe_total⟩
  haveI : IsTrans Key keyLe := ⟨keyLe_trans⟩
  haveI : IsAntisymm Key keyLe := ⟨keyLe_antisymm⟩
  have hpermC : (completedResults rs).Perm (completedResults rs') :=
    hperm.filter _
  have hnd' : ((completedResults rs').map resultKey).Nodup :=
    ((hpermC.map resultKey).nodup_iff).mp hnd
  have hkeysperm : ((retainResults rs).map Prod.fst).Perm
      ((retainResults rs').map Prod.fst) := by
    rw [retain_keys rs hnd, retain_keys rs' hnd']
    exact hpermC.map resultKey
  have hks : List.insertionSort keyLe ((retainResults rs).map Prod.fst) =
      List.insertionSort keyLe ((retainResults rs').map Prod.fst) := by
    exact @List.eq_of_perm_of_sorted Key keyLe _ _ _
      ((List.perm_insertionSort keyLe _).trans
        (hkeysperm.trans (List.perm_insertionSort keyLe _).symm))
      (List.sorted_insertionSort keyLe _)
      (List.sorted_insertionSort keyLe _)
  have hlk : ∀ k, lookupKey (retainResults rs) k =
      lookupKey (retainResults rs') k := by
    intro k
    by_cases hk : ∃ r ∈ completedResults rs, resultKey r = k
    · obtain ⟨r, hr, rfl⟩ := hk
      rw [retainResults_eq rs hnd, retainResults_eq rs' hnd']
      rw [lookupKey_map_of_mem _ r hnd hr,
        lookupKey_map_of_mem _ r hnd' (hpermC.mem_iff.mp hr)]
    · push_neg at hk
      have h1 : k ∉ (retainResults rs).map Prod.fst := by
        rw [retain_keys rs hnd]
        simp only [List.mem_map, not_exists, not_and]
        intro r hr
        exact hk r hr
      have h2 : k ∉ (retainResults rs').map Prod.fst := by
        rw [retain_keys rs' hnd']
        simp only [List.mem_map, not_exists, not_and]
        intro r hr
        exact hk r (hpermC.mem_iff.mpr hr)
      rw [lookupKey_of_not_mem _ _ h1, lookupKey_of_not_mem _ _ h2]
  refine ⟨?_, ?_, ?_⟩
  · have hfun : (fun k => (lookupKey (retainResults rs) k).map
        (mkEntry tox_env pytest_version k)) =
        fun k => (lookupKey (retainResults rs') k).map
          (mkEntry tox_env pytest_version k) :=
      funext fun k => by rw [hlk k]
    show (List.insertionSort keyLe ((retainResults rs).map Prod.fst)).filterMap
        (fun k => (lookupKey (retainResults rs) k).map
          (mkEntry tox_env pytest_version k)) =
      (List.insertionSort keyLe ((retainResults rs').map Prod.fst)).filterMap
        fun k => (lookupKey (retainResults rs') k).map
          (mkEntry tox_env pytest_version k)
    rw [hks, hfun]
  · show List.Sorted keyLe
      (((List.insertionSort keyLe
          ((retainResults rs).map Prod.fst)).filterMap
        fun k => (lookupKey (retainResults rs) k).map
          (mkEntry tox_env pytest_version k)).map
        fun e => (e.name, e.version))
    rw [report_keys]
    exact List.Pairwise.sublist (List.filter_sublist _)
      (List.sorted_insertionSort keyLe _)
  · intro e he
    have he' : e ∈ (List.insertionSort keyLe
        ((retainResults rs).map Prod.fst)).filterMap
          (fun k => (lookupKey (retainResults rs) k).map
            (mkEntry tox_env pytest_version k)) := he
    obtain ⟨k, _, hke⟩ := List.mem_filterMap.mp he'
    cases hl : lookupKey (retainResults rs) k with
    | none =>
      rw [hl] at hke
      cases hke
    | some v =>
      rw [hl] at hke
      simp only [Option.map_some', Option.some.injEq] at hke
      subst hke
      refine ⟨v, ?_, rfl⟩
      have hkk : ((mkEntry tox_env pytest_version k v).name,
          (mkEntry tox_env pytest_version k v).version) = k := by
        simp [mkEntry]
      rw [hkk, hl]

/-- Witness for C8 with the concrete completion orders `[resB, resA]` and
`[resA, resB]`. -/
theorem report_sorted_deterministic_witness :
    buildReport "py38" "7.0" [resB, resA] =
      buildReport "py38" "7.0" [resA, resB] ∧
    List.Sorted keyLe
      ((buildReport "py38" "7.0" [resB, resA]).map
        fun e => (e.name, e.version)) ∧
    (∀ e ∈ buildReport "py38" "7.0" [resB, resA],
      ∃ v, lookupKey (retainResults [resB, resA]) (e.name, e.version) =
          some v ∧
        e.status = if v.1 = StatusCode.int 0 then "ok" else "fail") :=
  report_sorted_deterministic "py38" "7.0" [resB, resA] [resA, resB]
    (List.Perm.swap resA resB []) (by decide)

end Plugincompat
